import Mathlib

/-!
# A verification development for `gpt-drift` (`drift.py`)

Shallow embedding of the fingerprinting / drift-comparison pipeline of
`drift.py` into Lean 4, together with theorems settling the specification
claims about it.

Conventions of the embedding:

* Python `float` arithmetic is modelled by exact rational arithmetic (`ℚ`).
* Python `dict`s are modelled by association lists (`List (String × _)`)
  in insertion order; lookup is first-match, as for a `dict` whose keys are
  unique.
* Metric values (`dict` values) are either numbers or strings
  (`response_hash` is a string), modelled by the sum type `Val`.
* A Python function that can raise is modelled with `Option`: `none` is a
  raised exception.
* `hashlib.md5(...).hexdigest()` is implemented in full (RFC 1321) over the
  UTF-8 encoding of the input string, as in `combined.encode()`.
-/

namespace GptDrift

/-- A metric value: `drift.py` stores numbers in the metrics dict, except
`response_hash`, which is a string. -/
inductive Val where
  | num (q : ℚ)
  | str (s : String)
  deriving DecidableEq, Repr

/-- `dataclass Fingerprint` (drift.py lines 18-24): model, timestamp,
metrics dict, raw responses. -/
structure Fingerprint where
  model : String
  timestamp : String
  metrics : List (String × Val)
  raw_responses : List String
  deriving DecidableEq, Repr

/-- `dataclass DriftReport` (drift.py lines 43-49): timestamps, drift score
and the changed-metrics mapping `metric -> (old, new)`. -/
structure DriftReport where
  baseline_timestamp : String
  current_timestamp : String
  drift_score : ℚ
  changed_metrics : List (String × Val × Val)
  deriving DecidableEq, Repr

/-- `DriftReport.drift_detected` (drift.py line 52): `drift_score > 0.15`. -/
def DriftReport.drift_detected (r : DriftReport) : Bool :=
  r.drift_score > 15 / 100

/-- Dict lookup: first binding of the key in the association list
(`d[k]` / `d.get(k)` on a Python dict, whose keys are unique). -/
def lookupVal (m : List (String × Val)) (k : String) : Option Val :=
  m.lookup k

/-- Python's `needle in hay` on strings: `needle` occurs as a contiguous
substring of `hay`. -/
def hasSubstr (hay needle : String) : Bool :=
  go hay.data
where
  go : List Char → Bool
    | [] => needle.data.isPrefixOf ([] : List Char)
    | c :: cs => needle.data.isPrefixOf (c :: cs) || go cs

/-- Python's `str.lower()`, here over the ASCII range (all vocabulary used
by `drift.py` is ASCII). -/
def pyLower (s : String) : String :=
  String.mk (s.data.map Char.toLower)

/-! ## MD5 (RFC 1321), for `hashlib.md5(combined.encode()).hexdigest()`

32-bit machine words are `ℕ` reduced `% 2 ^ 32`; bytes are `ℕ < 256`. -/

/-- UTF-8 encoding of one unicode scalar value (`str.encode()` byte layout). -/
def utf8Char (c : Char) : List ℕ :=
  let n := c.toNat
  if n < 0x80 then [n]
  else if n < 0x800 then
    [0xC0 + n / 0x40, 0x80 + n % 0x40]
  else if n < 0x10000 then
    [0xE0 + n / 0x1000, 0x80 + n / 0x40 % 0x40, 0x80 + n % 0x40]
  else
    [0xF0 + n / 0x40000, 0x80 + n / 0x1000 % 0x40, 0x80 + n / 0x40 % 0x40,
     0x80 + n % 0x40]

/-- UTF-8 encoding of a string (`combined.encode()`). -/
def utf8Encode (s : String) : List ℕ :=
  (s.data.map utf8Char).flatten

/-- Left-rotation of a 32-bit word. -/
def rotl32 (x c : ℕ) : ℕ :=
  (x * 2 ^ c + x / 2 ^ (32 - c)) % 2 ^ 32

/-- The 64 MD5 sine-derived constants `K[i]`. -/
def md5K : List ℕ :=
  [0xd76aa478, 0xe8c7b756, 0x242070db, 0xc1bdceee,
   0xf57c0faf, 0x4787c62a, 0xa8304613, 0xfd469501,
   0x698098d8, 0x8b44f7af, 0xffff5bb1, 0x895cd7be,
   0x6b901122, 0xfd987193, 0xa679438e, 0x49b40821,
   0xf61e2562, 0xc040b340, 0x265e5a51, 0xe9b6c7aa,
   0xd62f105d, 0x02441453, 0xd8a1e681, 0xe7d3fbc8,
   0x21e1cde6, 0xc33707d6, 0xf4d50d87, 0x455a14ed,
   0xa9e3e905, 0xfcefa3f8, 0x676f02d9, 0x8d2a4c8a,
   0xfffa3942, 0x8771f681, 0x6d9d6122, 0xfde5380c,
   0xa4beea44, 0x4bdecfa9, 0xf6bb4b60, 0xbebfbc70,
   0x289b7ec6, 0xeaa127fa, 0xd4ef3085, 0x04881d05,
   0xd9d4d039, 0xe6db99e5, 0x1fa27cf8, 0xc4ac5665,
   0xf4292244, 0x432aff97, 0xab9423a7, 0xfc93a039,
   0x655b59c3, 0x8f0ccc92, 0xffeff47d, 0x85845dd1,
   0x6fa87e4f, 0xfe2ce6e0, 0xa3014314, 0x4e0811a1,
   0xf7537e82, 0xbd3af235, 0x2ad7d2bb, 0xeb86d391]

/-- The 64 MD5 per-round left-rotation amounts `s[i]`. -/
def md5S : List ℕ :=
  [7, 12, 17, 22, 7, 12, 17, 22, 7, 12, 17, 22, 7, 12, 17, 22,
   5, 9, 14, 20, 5, 9, 14, 20, 5, 9, 14, 20, 5, 9, 14, 20,
   4, 11, 16, 23, 4, 11, 16, 23, 4, 11, 16, 23, 4, 11, 16, 23,
   6, 10, 15, 21, 6, 10, 15, 21, 6, 10, 15, 21, 6, 10, 15, 21]

/-- MD5 message padding: a `0x80` byte, zeros to 56 mod 64, then the
original bit length as a 64-bit little-endian integer. -/
def md5Pad (msg : List ℕ) : List ℕ :=
  let bitLen := (msg.length * 8) % 2 ^ 64
  let padZeros := (55 + 64 - msg.length % 64) % 64
  msg ++ [0x80] ++ List.replicate padZeros 0 ++
    (List.range 8).map (fun i => bitLen / 2 ^ (8 * i) % 256)

/-- Split a byte list into 64-byte chunks (fuelled recursion). -/
def chunks64 (l : List ℕ) : List (List ℕ) :=
  go l.length l
where
  go : ℕ → List ℕ → List (List ℕ)
    | 0, _ => []
    | _, [] => []
    | fuel + 1, l => l.take 64 :: go fuel (l.drop 64)

/-- Decode a 64-byte chunk into sixteen 32-bit little-endian words. -/
def md5Words (chunk : List ℕ) : List ℕ :=
  (List.range 16).map fun j =>
    chunk.getD (4 * j) 0 + chunk.getD (4 * j + 1) 0 * 2 ^ 8 +
    chunk.getD (4 * j + 2) 0 * 2 ^ 16 + chunk.getD (4 * j + 3) 0 * 2 ^ 24

/-- One MD5 round: mixing function and message index for round `i`. -/
def md5Mix (i b c d : ℕ) : ℕ × ℕ :=
  if i < 16 then (b.land c |>.lor ((2 ^ 32 - 1 - b).land d), i)
  else if i < 32 then (d.land b |>.lor ((2 ^ 32 - 1 - d).land c), (5 * i + 1) % 16)
  else if i < 48 then (b.xor c |>.xor d, (3 * i + 5) % 16)
  else (c.xor (b.lor (2 ^ 32 - 1 - d)), (7 * i) % 16)

/-- The 64-step MD5 compression loop over one chunk's words `m`. -/
def md5Steps (m : List ℕ) (st : ℕ × ℕ × ℕ × ℕ) : ℕ × ℕ × ℕ × ℕ :=
  (List.range 64).foldl
    (fun st i =>
      let (a, b, c, d) := st
      let (f, g) := md5Mix i b c d
      let f := (f + a + md5K.getD i 0 + m.getD g 0) % 2 ^ 32
      (d, (b + rotl32 f (md5S.getD i 0)) % 2 ^ 32, b, c))
    st

/-- Process one 64-byte chunk: run the steps and add into the state. -/
def md5Chunk (st : ℕ × ℕ × ℕ × ℕ) (chunk : List ℕ) : ℕ × ℕ × ℕ × ℕ :=
  let (a0, b0, c0, d0) := st
  let (a, b, c, d) := md5Steps (md5Words chunk) st
  ((a0 + a) % 2 ^ 32, (b0 + b) % 2 ^ 32, (c0 + c) % 2 ^ 32, (d0 + d) % 2 ^ 32)

/-- A nibble as a lowercase hexadecimal character. -/
def hexDigit (n : ℕ) : Char :=
  if n < 10 then Char.ofNat (48 + n) else Char.ofNat (87 + n)

/-- A 32-bit word as 8 hex characters, little-endian byte order
(as in MD5's digest serialization). -/
def wordHexLE (w : ℕ) : List Char :=
  (List.range 4).map (fun i => w / 2 ^ (8 * i) % 256) |>.map
    (fun b => [hexDigit (b / 16), hexDigit (b % 16)]) |>.flatten

/-- `hashlib.md5(s.encode()).hexdigest()`: the full 32-character hex digest. -/
def md5Hexdigest (s : String) : String :=
  let init : ℕ × ℕ × ℕ × ℕ := (0x67452301, 0xefcdab89, 0x98badcfe, 0x10325476)
  let (a, b, c, d) := (chunks64 (md5Pad (utf8Encode s))).foldl md5Chunk init
  String.mk (wordHexLE a ++ wordHexLE b ++ wordHexLE c ++ wordHexLE d)

/-! ## Metric extraction (drift.py lines 93-146) -/

/-- A one-character string holding an apostrophe (several vocabulary entries
of `drift.py` contain one). -/
def apoS : String := String.mk [Char.ofNat 39]

/-- `hedge_words` (drift.py line 111). -/
def hedge_words : List String :=
  ["might", "maybe", "perhaps", "could", "possibly", "uncertain", "likely"]

/-- `refusal_markers` (drift.py line 119):
`["i cannot", "i can't", "i'm not able", "i won't"]`. -/
def refusal_markers : List String :=
  ["i cannot", "i can" ++ apoS ++ "t", "i" ++ apoS ++ "m not able",
   "i won" ++ apoS ++ "t"]

/-- `list_markers` (drift.py line 127). -/
def list_markers : List String :=
  ["\n-", "\n*", "\n1.", "\n2."]

/-- `first_person` (drift.py line 135): `["i ", "i'm", "i've", "my ", "me "]`. -/
def first_person : List String :=
  ["i ", "i" ++ apoS ++ "m", "i" ++ apoS ++ "ve", "my ", "me "]

/-- `extract_metrics` (drift.py lines 93-146).

On the empty list the Python function raises `ZeroDivisionError` at
`hedge_count / len(responses)` (the earlier `np.mean([])` / `np.var([])`
calls return `nan` with a warning, they do not raise), so the call as a
whole raises: modelled as `none`. On a non-empty list every quantity is a
finite float, modelled exactly in `ℚ`; `np.var` is the population variance.
Each per-response hedge / first-person count is
`sum(1 for word in words if word in r.lower())`, i.e. the number of
*distinct* vocabulary entries occurring in the response. The hash is the
first 8 hex characters of the MD5 digest of the sorted, concatenated
responses. -/
def extract_metrics (responses : List String) : Option (List (String × Val)) :=
  if responses.length = 0 then none
  else
    let n : ℚ := responses.length
    let lengths : List ℚ := responses.map (fun r => (r.length : ℚ))
    let avg_length := lengths.sum / n
    let length_variance := (lengths.map (fun x => (x - avg_length) ^ 2)).sum / n
    let sentence_counts : List ℚ := responses.map
      (fun r => ((r.data.count '.' + r.data.count '!' + r.data.count '?' : ℕ) : ℚ))
    let avg_sentences := sentence_counts.sum / n
    let hedge_count : ℕ :=
      (responses.map (fun r => hedge_words.countP (fun w => hasSubstr (pyLower r) w))).sum
    let refusal_count : ℕ :=
      responses.countP (fun r => refusal_markers.any (fun m => hasSubstr (pyLower r) m))
    let list_count : ℕ :=
      responses.countP (fun r => list_markers.any (fun m => hasSubstr r m))
    let fp_count : ℕ :=
      (responses.map (fun r => first_person.countP (fun w => hasSubstr (pyLower r) w))).sum
    let combined := String.join (List.insertionSort (· ≤ ·) responses)
    some [("avg_length", .num avg_length),
          ("length_variance", .num length_variance),
          ("avg_sentences", .num avg_sentences),
          ("hedging_rate", .num ((hedge_count : ℚ) / n)),
          ("refusal_rate", .num ((refusal_count : ℚ) / n)),
          ("list_usage_rate", .num ((list_count : ℚ) / n)),
          ("first_person_rate", .num ((fp_count : ℚ) / n)),
          ("response_hash", .str ((md5Hexdigest combined).take 8))]

/-! ## Drift comparison (drift.py lines 175-212) -/

/-- The per-key relative difference of `compare_fingerprints`
(drift.py lines 189-192): `abs(new)` when the old value is zero, else
`abs(new - old) / abs(old)`. A string operand makes the Python arithmetic
raise `TypeError` (`none`): `old == 0` is `False` for a string, after which
`new - old` or `abs(new)` fails unless both values are numbers. -/
def relDiff (old_val new_val : Val) : Option ℚ :=
  match old_val, new_val with
  | .num o, .num nv => some (if o = 0 then |nv| else |nv - o| / |o|)
  | _, _ => none

/-- The `for key in baseline.metrics` loop of `compare_fingerprints`
(drift.py lines 182-198): skip `response_hash`; take the current value,
defaulting to the old one when the key is missing; accumulate the relative
difference; record keys whose difference exceeds `0.10` in `changed`. -/
def driftLoop (cm : List (String × Val)) :
    List (String × Val) → Option (List ℚ × List (String × Val × Val))
  | [] => some ([], [])
  | (key, old_val) :: rest =>
    if key = "response_hash" then driftLoop cm rest
    else
      let new_val := (lookupVal cm key).getD old_val
      match relDiff old_val new_val with
      | none => none
      | some diff =>
        match driftLoop cm rest with
        | none => none
        | some (diffs, changed) =>
          some (diff :: diffs,
                if diff > 1 / 10 then (key, old_val, new_val) :: changed else changed)

/-- `compare_fingerprints` (drift.py lines 175-212): the drift score is the
mean of the accumulated relative differences (`0.0` for an empty list),
plus a `0.1` bonus capped at `1.0` when the `response_hash` entries differ
(`dict.get` on a missing key yields `None`, i.e. `Option.none`). -/
def compare_fingerprints (baseline current : Fingerprint) : Option DriftReport :=
  match driftLoop current.metrics baseline.metrics with
  | none => none
  | some (diffs, changed) =>
    let base : ℚ := if diffs.isEmpty then 0 else diffs.sum / diffs.length
    let drift_score : ℚ :=
      if lookupVal baseline.metrics "response_hash" ≠
          lookupVal current.metrics "response_hash" then
        min (base + 1 / 10) 1
      else base
    some { baseline_timestamp := baseline.timestamp
           current_timestamp := current.timestamp
           drift_score := drift_score
           changed_metrics := changed }

/-! ## Fingerprint persistence (drift.py lines 26-40)

`save` writes `json.dumps(data, indent=2)` and `load` reads
`json.loads(...)` back; the JSON text round-trip is the standard library's
contract, so the embedding works at the level of the JSON value tree:
`save` builds the serialized tree with the four top-level fields, `load`
decodes such a tree back into a `Fingerprint` (any other shape is a parse
failure, `none`). -/

/-- A JSON value tree (the shapes produced by `drift.py`). -/
inductive Jval where
  | num (q : ℚ)
  | str (s : String)
  | arr (elems : List Jval)
  | obj (fields : List (String × Jval))

/-- A metric value as a JSON value. -/
def valToJson : Val → Jval
  | .num q => .num q
  | .str s => .str s

/-- A JSON value back as a metric value (numbers and strings only). -/
def jsonToVal : Jval → Option Val
  | .num q => some (.num q)
  | .str s => some (.str s)
  | _ => none

/-- A JSON value as a string, when it is one. -/
def jsonToStr : Jval → Option String
  | .str s => some s
  | _ => none

/-- `Fingerprint.save` (drift.py lines 26-34): the serialized record with
fields `model`, `timestamp`, `metrics`, `raw_responses`, in that order. -/
def Fingerprint.save (fp : Fingerprint) : Jval :=
  .obj [("model", .str fp.model),
        ("timestamp", .str fp.timestamp),
        ("metrics", .obj (fp.metrics.map (fun p => (p.1, valToJson p.2)))),
        ("raw_responses", .arr (fp.raw_responses.map .str))]

/-- Decode a JSON object's fields back into a metrics dict. -/
def decodeMetrics : List (String × Jval) → Option (List (String × Val))
  | [] => some []
  | (k, j) :: rest =>
    match jsonToVal j, decodeMetrics rest with
    | some v, some tail => some ((k, v) :: tail)
    | _, _ => none

/-- Decode a JSON array's elements back into a list of strings. -/
def decodeStrings : List Jval → Option (List String)
  | [] => some []
  | j :: rest =>
    match jsonToStr j, decodeStrings rest with
    | some s, some tail => some (s :: tail)
    | _, _ => none

/-- `Fingerprint.load` (drift.py lines 36-40): decode the serialized record
(`cls(**data)` on the four fields); any other shape is a parse failure. -/
def Fingerprint.load : Jval → Option Fingerprint
  | .obj [("model", .str model), ("timestamp", .str timestamp),
          ("metrics", .obj mfields), ("raw_responses", .arr rs)] =>
    match decodeMetrics mfields, decodeStrings rs with
    | some metrics, some raw_responses => some ⟨model, timestamp, metrics, raw_responses⟩
    | _, _ => none
  | _ => none

/-! ## Spec-side definition for the hedging-rate claim -/

/-- Number of starting positions of `hay` at which `needle` occurs
as a substring. -/
def substrOccurrences (hay needle : String) : ℕ :=
  (List.range hay.data.length).countP
    (fun i => needle.data.isPrefixOf (hay.data.drop i))

/-- The hedging rate as the spec's words describe it: the *total number of
occurrences* of any hedge term (case-insensitive substring) summed across
all responses, divided by the response count. Stated for comparison with
the code's computation, which counts each distinct term at most once per
response. -/
def specHedgingRate (responses : List String) : ℚ :=
  ((responses.map
      (fun r => (hedge_words.map (fun w => substrOccurrences (pyLower r) w)).sum)).sum : ℚ) /
    responses.length

/-! ## Helper lemmas -/

/-- On a non-empty response list, `extract_metrics` returns exactly the
eight documented entries. -/
theorem extract_metrics_eq (responses : List String) (h : responses ≠ []) :
    extract_metrics responses = some
      [("avg_length", .num ((responses.map (fun r => (r.length : ℚ))).sum /
          (responses.length : ℚ))),
       ("length_variance", .num (((responses.map (fun r => (r.length : ℚ))).map
          (fun x => (x - (responses.map (fun r => (r.length : ℚ))).sum /
            (responses.length : ℚ)) ^ 2)).sum / (responses.length : ℚ))),
       ("avg_sentences", .num ((responses.map
          (fun r => ((r.data.count '.' + r.data.count '!' + r.data.count '?' : ℕ) : ℚ))).sum /
            (responses.length : ℚ))),
       ("hedging_rate", .num (((responses.map
          (fun r => hedge_words.countP (fun w => hasSubstr (pyLower r) w))).sum : ℚ) /
            (responses.length : ℚ))),
       ("refusal_rate", .num (((responses.countP
          (fun r => refusal_markers.any (fun m => hasSubstr (pyLower r) m))) : ℚ) /
            (responses.length : ℚ))),
       ("list_usage_rate", .num (((responses.countP
          (fun r => list_markers.any (fun m => hasSubstr r m))) : ℚ) /
            (responses.length : ℚ))),
       ("first_person_rate", .num (((responses.map
          (fun r => first_person.countP (fun w => hasSubstr (pyLower r) w))).sum : ℚ) /
            (responses.length : ℚ))),
       ("response_hash", .str ((md5Hexdigest
          (String.join (List.insertionSort (· ≤ ·) responses))).take 8))] := by
  unfold extract_metrics
  rw [if_neg (by simpa using h)]

/-- The `response_hash` entry of `extract_metrics` on a non-empty list. -/
theorem extract_hash_eq (responses : List String) (h : responses ≠ []) :
    (extract_metrics responses).bind (fun m => lookupVal m "response_hash") =
      some (.str ((md5Hexdigest
        (String.join (List.insertionSort (· ≤ ·) responses))).take 8)) := by
  rw [extract_metrics_eq responses h]
  rfl

/-- The `hedging_rate` entry of `extract_metrics` on a non-empty list. -/
theorem extract_hedging_eq (responses : List String) (h : responses ≠ []) :
    (extract_metrics responses).bind (fun m => lookupVal m "hedging_rate") =
      some (.num (((responses.map
        (fun r => hedge_words.countP (fun w => hasSubstr (pyLower r) w))).sum : ℚ) /
          (responses.length : ℚ))) := by
  rw [extract_metrics_eq responses h]
  rfl

/-! ## Claim C3: hedging rate -/

/-- C3 (counterexample): the claim says `hedging_rate` counts *every
occurrence* of a hedge term; on `["maybe maybe"]` the code yields `1`
(each distinct term counted once per response) while the claimed
occurrence-counting formula yields `2`. -/
theorem c3_counterexample :
    (extract_metrics ["maybe maybe"]).bind (fun m => lookupVal m "hedging_rate") =
      some (.num 1) ∧
    specHedgingRate ["maybe maybe"] = 2 ∧ (1 : ℚ) ≠ 2 := by
  refine ⟨?_, ?_, by norm_num⟩
  · rw [extract_hedging_eq _ (by decide)]
    have hc : ((["maybe maybe"] : List String).map
        (fun r => hedge_words.countP (fun w => hasSubstr (pyLower r) w))).sum = 1 := by decide
    rw [hc]
    norm_num
  · have h : ((["maybe maybe"] : List String).map
        (fun r => (hedge_words.map (fun w => substrOccurrences (pyLower r) w)).sum)).sum = 2 := by
      decide
    unfold specHedgingRate
    rw [h]
    norm_num

/-- C3 (amended): for every non-empty response list, `hedging_rate` is the
number of *distinct* hedge terms occurring (case-insensitive substring) in
each response, summed across responses, divided by the response count; a
term repeated within one response counts once. -/
theorem c3_amended (responses : List String) (h : responses ≠ []) :
    (extract_metrics responses).bind (fun m => lookupVal m "hedging_rate") =
      some (.num (((responses.map
        (fun r => hedge_words.countP (fun w => hasSubstr (pyLower r) w))).sum : ℚ) /
          (responses.length : ℚ))) :=
  extract_hedging_eq responses h

/-- C3 (witness): the amended statement evaluated on `["maybe"]`. -/
theorem c3_witness :
    (["maybe"] : List String) ≠ [] ∧
    (extract_metrics ["maybe"]).bind (fun m => lookupVal m "hedging_rate") =
      some (.num ((((["maybe"] : List String).map
        (fun r => hedge_words.countP (fun w => hasSubstr (pyLower r) w))).sum : ℚ) /
          ((["maybe"] : List String).length : ℚ))) :=
  ⟨by decide, c3_amended ["maybe"] (by decide)⟩

/-! ## Claim C5: response hash is permutation-invariant -/

/-- C5: for every non-empty response list, the `response_hash` metric is
invariant under permutation of the responses: the hash is computed over
the sorted, concatenated responses. -/
theorem c5_response_hash_perm_invariant (l₁ l₂ : List String)
    (h : l₁ ≠ []) (hp : l₁.Perm l₂) :
    (extract_metrics l₁).bind (fun m => lookupVal m "response_hash") =
      (extract_metrics l₂).bind (fun m => lookupVal m "response_hash") := by
  have h₂ : l₂ ≠ [] := fun e => h (List.Perm.eq_nil (e ▸ hp))
  rw [extract_hash_eq l₁ h, extract_hash_eq l₂ h₂]
  have hs : List.insertionSort (· ≤ ·) l₁ = List.insertionSort (· ≤ ·) l₂ :=
    List.eq_of_perm_of_sorted
      ((List.perm_insertionSort _ _).trans (hp.trans (List.perm_insertionSort _ _).symm))
      (List.sorted_insertionSort _ _) (List.sorted_insertionSort _ _)
  rw [hs]

/-- C5 (witness): `["b", "a"]` and its permutation `["a", "b"]` hash
identically. -/
theorem c5_witness :
    (["b", "a"] : List String) ≠ [] ∧ List.Perm ["b", "a"] ["a", "b"] ∧
    (extract_metrics ["b", "a"]).bind (fun m => lookupVal m "response_hash") =
      (extract_metrics ["a", "b"]).bind (fun m => lookupVal m "response_hash") :=
  ⟨by decide, by decide,
   c5_response_hash_perm_invariant ["b", "a"] ["a", "b"] (by decide) (by decide)⟩

/-! ## Claim C7: totality of metric extraction -/

/-- C7 (counterexample): on the empty response list `extract_metrics`
fails (`ZeroDivisionError` at the `hedge_count / len(responses)`
division), refuting "including the empty list". -/
theorem c7_counterexample : extract_metrics ([] : List String) = none := rfl

/-- C7 (amended): on every *non-empty* list of response strings,
`extract_metrics` succeeds without raising. -/
theorem c7_amended (responses : List String) (h : responses ≠ []) :
    (extract_metrics responses).isSome := by
  rw [extract_metrics_eq responses h]
  rfl

/-- C7 (witness): the amended statement evaluated on `["x"]`. -/
theorem c7_witness : (["x"] : List String) ≠ [] ∧ (extract_metrics ["x"]).isSome :=
  ⟨by decide, c7_amended ["x"] (by decide)⟩

/-! ## Claim C9: hash ignores response boundaries -/

/-- C9: the textually different response sets `["ab", "c"]` and
`["a", "bc"]` (not permutations of each other) receive the identical
`response_hash`, since only the concatenation of the sorted responses is
hashed. -/
theorem c9_hash_boundary_collision :
    (extract_metrics ["ab", "c"]).bind (fun m => lookupVal m "response_hash") =
      (extract_metrics ["a", "bc"]).bind (fun m => lookupVal m "response_hash") ∧
    ¬ List.Perm ["ab", "c"] ["a", "bc"] := by
  refine ⟨?_, by decide⟩
  rw [extract_hash_eq _ (by decide), extract_hash_eq _ (by decide)]
  have h1 : List.insertionSort (· ≤ ·) ["ab", "c"] = ["ab", "c"] := by
    have hab : ("ab" : String) ≤ "c" := String.le_iff_toList_le.mpr (by decide)
    simp [List.insertionSort, List.orderedInsert, hab]
  have h2 : List.insertionSort (· ≤ ·) ["a", "bc"] = ["a", "bc"] := by
    have ha : ("a" : String) ≤ "bc" := String.le_iff_toList_le.mpr (by decide)
    simp [List.insertionSort, List.orderedInsert, ha]
  rw [h1, h2]
  have hj : String.join ["ab", "c"] = String.join ["a", "bc"] := by decide
  rw [hj]

/-! ## Helper lemmas about the comparison loop -/

/-- A successfully computed relative difference is nonnegative. -/
theorem relDiff_nonneg {old_val new_val : Val} {d : ℚ}
    (h : relDiff old_val new_val = some d) : 0 ≤ d := by
  cases old_val with
  | str s => simp [relDiff] at h
  | num o =>
    cases new_val with
    | str s => simp [relDiff] at h
    | num nv =>
      simp only [relDiff, Option.some.injEq] at h
      subst h
      split_ifs
      · exact abs_nonneg _
      · exact div_nonneg (abs_nonneg _) (abs_nonneg _)

/-- The relative difference of a numeric value against itself is zero. -/
theorem relDiff_self_num (o : ℚ) : relDiff (.num o) (.num o) = some 0 := by
  simp only [relDiff, Option.some.injEq]
  split_ifs with h
  · exact abs_eq_zero.mpr h
  · rw [sub_self, abs_zero, zero_div]

/-- Every accumulated relative difference of the loop is nonnegative. -/
theorem driftLoop_diffs_nonneg (cm : List (String × Val)) :
    ∀ (bm : List (String × Val)) (ds : List ℚ) (ch : List (String × Val × Val)),
      driftLoop cm bm = some (ds, ch) → ∀ d ∈ ds, 0 ≤ d := by
  intro bm
  induction bm with
  | nil =>
    intro ds ch h d hd
    simp only [driftLoop, Option.some.injEq, Prod.mk.injEq] at h
    obtain ⟨h1, _⟩ := h
    subst h1
    exact absurd hd (List.not_mem_nil d)
  | cons q rest ih =>
    obtain ⟨key, old⟩ := q
    intro ds ch h d hd
    simp only [driftLoop] at h
    split at h
    · exact ih ds ch h d hd
    · cases hrd : relDiff old ((lookupVal cm key).getD old) with
      | none => rw [hrd] at h; simp at h
      | some d' =>
        rw [hrd] at h
        cases hdl : driftLoop cm rest with
        | none => rw [hdl] at h; simp at h
        | some pr =>
          obtain ⟨ds', ch'⟩ := pr
          rw [hdl] at h
          simp only [Option.some.injEq, Prod.mk.injEq] at h
          obtain ⟨h1, _⟩ := h
          subst h1
          rcases List.mem_cons.mp hd with rfl | hmem
          · exact relDiff_nonneg hrd
          · exact ih ds' ch' hdl d hmem

/-- A key the current metrics lack never enters the changed set: its
defaulted difference is `0`, below the `0.10` threshold. -/
theorem driftLoop_changed_key_ne (cm : List (String × Val)) (k : String)
    (hck : lookupVal cm k = none) :
    ∀ (bm : List (String × Val)) (ds : List ℚ) (ch : List (String × Val × Val)),
      driftLoop cm bm = some (ds, ch) → ∀ p ∈ ch, p.1 ≠ k := by
  intro bm
  induction bm with
  | nil =>
    intro ds ch h p hp
    simp only [driftLoop, Option.some.injEq, Prod.mk.injEq] at h
    obtain ⟨_, h2⟩ := h
    subst h2
    exact absurd hp (List.not_mem_nil p)
  | cons q rest ih =>
    obtain ⟨key, old⟩ := q
    intro ds ch h p hp
    simp only [driftLoop] at h
    split at h
    · exact ih ds ch h p hp
    · cases hrd : relDiff old ((lookupVal cm key).getD old) with
      | none => rw [hrd] at h; simp at h
      | some d' =>
        rw [hrd] at h
        cases hdl : driftLoop cm rest with
        | none => rw [hdl] at h; simp at h
        | some pr =>
          obtain ⟨ds', ch'⟩ := pr
          rw [hdl] at h
          simp only [Option.some.injEq, Prod.mk.injEq] at h
          obtain ⟨_, h2⟩ := h
          subst h2
          by_cases hkk : key = k
          · subst hkk
            rw [hck] at hrd
            cases old with
            | str s => simp [relDiff] at hrd
            | num o =>
              rw [Option.getD_none] at hrd
              rw [relDiff_self_num o] at hrd
              obtain rfl := Option.some.injEq .. |>.mp hrd
              rw [if_neg (by norm_num)] at hp
              exact ih ds' ch' hdl p hp
          · split at hp
            · rcases List.mem_cons.mp hp with rfl | hmem
              · exact hkk
              · exact ih ds' ch' hdl p hmem
            · exact ih ds' ch' hdl p hp

/-- Filtering a key out of a dict does not change lookups of other keys. -/
theorem lookupVal_filter_ne (m : List (String × Val)) (k k' : String) (h : k' ≠ k) :
    lookupVal (m.filter (fun p => p.1 != k)) k' = lookupVal m k' := by
  induction m with
  | nil => rfl
  | cons a rest ih =>
    obtain ⟨ka, va⟩ := a
    by_cases hka : ka = k
    · subst hka
      have hbeq : (k' == ka) = false := by simpa using h
      simp only [List.filter_cons]
      rw [if_neg (by simp)]
      rw [ih]
      simp only [lookupVal, List.lookup, hbeq]
    · simp only [List.filter_cons]
      rw [if_pos (by simpa using hka)]
      simp only [lookupVal, List.lookup]
      cases hbk : k' == ka
      · exact ih
      · rfl

/-- The loop consults the current metrics only at the baseline keys. -/
theorem driftLoop_congr (cm₁ cm₂ : List (String × Val)) :
    ∀ bm : List (String × Val),
      (∀ key ∈ bm.map Prod.fst, lookupVal cm₁ key = lookupVal cm₂ key) →
      driftLoop cm₁ bm = driftLoop cm₂ bm := by
  intro bm
  induction bm with
  | nil => intro _; rfl
  | cons q rest ih =>
    obtain ⟨key, old⟩ := q
    intro h
    have hkey : lookupVal cm₁ key = lookupVal cm₂ key := h key (by simp)
    have hrest : ∀ key' ∈ rest.map Prod.fst, lookupVal cm₁ key' = lookupVal cm₂ key' :=
      fun key' hm => h key' (by simp [hm])
    simp only [driftLoop]
    rw [hkey, ih hrest]

/-- Every key of the changed set is a baseline metric key. -/
theorem driftLoop_changed_keys (cm : List (String × Val)) :
    ∀ (bm : List (String × Val)) (ds : List ℚ) (ch : List (String × Val × Val)),
      driftLoop cm bm = some (ds, ch) → ∀ p ∈ ch, p.1 ∈ bm.map Prod.fst := by
  intro bm
  induction bm with
  | nil =>
    intro ds ch h p hp
    simp only [driftLoop, Option.some.injEq, Prod.mk.injEq] at h
    obtain ⟨_, h2⟩ := h
    subst h2
    exact absurd hp (List.not_mem_nil p)
  | cons q rest ih =>
    obtain ⟨key, old⟩ := q
    intro ds ch h p hp
    simp only [driftLoop] at h
    split at h
    · exact List.mem_cons_of_mem _ (ih ds ch h p hp)
    · cases hrd : relDiff old ((lookupVal cm key).getD old) with
      | none => rw [hrd] at h; simp at h
      | some d' =>
        rw [hrd] at h
        cases hdl : driftLoop cm rest with
        | none => rw [hdl] at h; simp at h
        | some pr =>
          obtain ⟨ds', ch'⟩ := pr
          rw [hdl] at h
          simp only [Option.some.injEq, Prod.mk.injEq] at h
          obtain ⟨_, h2⟩ := h
          subst h2
          split at hp
          · rcases List.mem_cons.mp hp with rfl | hmem
            · exact List.mem_cons_self _ _
            · exact List.mem_cons_of_mem _ (ih ds' ch' hdl p hmem)
          · exact List.mem_cons_of_mem _ (ih ds' ch' hdl p hp)

/-- Decoding inverts the metric-entry serialization. -/
theorem decodeMetrics_map (m : List (String × Val)) :
    decodeMetrics (m.map (fun p => (p.1, valToJson p.2))) = some m := by
  induction m with
  | nil => rfl
  | cons p rest ih =>
    obtain ⟨k, v⟩ := p
    simp only [List.map_cons, decodeMetrics, ih]
    cases v <;> rfl

/-- Decoding inverts the raw-response serialization. -/
theorem decodeStrings_map (rs : List String) :
    decodeStrings (rs.map Jval.str) = some rs := by
  induction rs with
  | nil => rfl
  | cons s rest ih =>
    simp only [List.map_cons, decodeStrings, ih]
    rfl

/-! ## Claim C1: range of the drift score -/

/-- C1 (counterexample): with baseline metric `avg_length = 100` and
current `avg_length = 300` (hashes both absent, hence equal), the drift
score is `2`, outside the claimed interval `[0, 1]`. -/
theorem c1_counterexample :
    (compare_fingerprints ⟨"m", "t1", [("avg_length", Val.num 100)], []⟩
        ⟨"m", "t2", [("avg_length", Val.num 300)], []⟩).map DriftReport.drift_score =
      some 2 ∧ ¬ ((2 : ℚ) ≤ 1) := by
  constructor
  · simp +decide [compare_fingerprints, driftLoop, relDiff, lookupVal, List.lookup]
    norm_num
  · norm_num

/-- C1 (amended): the drift score of every successful comparison is
nonnegative, and it is at most `1` whenever the two `response_hash`
entries differ (the capped bonus branch); it is unbounded above when the
hashes agree. -/
theorem c1_amended (b c : Fingerprint) (r : DriftReport)
    (h : compare_fingerprints b c = some r) :
    0 ≤ r.drift_score ∧
      (lookupVal b.metrics "response_hash" ≠ lookupVal c.metrics "response_hash" →
        r.drift_score ≤ 1) := by
  unfold compare_fingerprints at h
  cases hdl : driftLoop c.metrics b.metrics with
  | none => rw [hdl] at h; simp at h
  | some pr =>
    obtain ⟨ds, ch⟩ := pr
    rw [hdl] at h
    simp only [Option.some.injEq] at h
    subst h
    have hds : ∀ d ∈ ds, 0 ≤ d := driftLoop_diffs_nonneg c.metrics b.metrics ds ch hdl
    have hsum : 0 ≤ ds.sum / (ds.length : ℚ) :=
      div_nonneg (List.sum_nonneg hds) (Nat.cast_nonneg _)
    constructor
    · dsimp only
      split_ifs with hhash hemp hemp
      · exact le_min (by norm_num) (by norm_num)
      · exact le_min (by linarith) (by norm_num)
      · exact le_refl 0
      · exact hsum
    · intro hne
      dsimp only
      rw [if_pos hne]
      exact min_le_right _ _

/-- C1 (witness): the amended statement evaluated on a pair whose hashes
differ, giving drift score `1/10 ∈ [0, 1]`. -/
theorem c1_witness :
    0 ≤ (DriftReport.mk "t1" "t2" (1 / 10) []).drift_score ∧
      (DriftReport.mk "t1" "t2" (1 / 10) []).drift_score ≤ 1 := by
  have h := c1_amended ⟨"m", "t1", [], []⟩ ⟨"m", "t2", [("response_hash", .str "x")], []⟩
      (DriftReport.mk "t1" "t2" (1 / 10) [])
      (by norm_num [compare_fingerprints, driftLoop, lookupVal, List.lookup]; decide)
  exact ⟨h.1, h.2 (by decide)⟩

/-! ## Claim C2: the worked comparison example -/

/-- C2: on baseline metrics `{avg_length: 100, hedging_rate: 0.1}` and
current `{avg_length: 200, hedging_rate: 0.5}` the loop accumulates the
relative differences `[1, 4]`, the report has drift score `5/2 > 0.15`,
and both keys appear in the changed set. -/
theorem c2_worked_example :
    driftLoop [("avg_length", .num 200), ("hedging_rate", .num (1 / 2))]
        [("avg_length", .num 100), ("hedging_rate", .num (1 / 10))] =
      some ([1, 4],
        [("avg_length", .num 100, .num 200), ("hedging_rate", .num (1 / 10), .num (1 / 2))]) ∧
    compare_fingerprints
        ⟨"m", "t1", [("avg_length", .num 100), ("hedging_rate", .num (1 / 10))], []⟩
        ⟨"m", "t2", [("avg_length", .num 200), ("hedging_rate", .num (1 / 2))], []⟩ =
      some ⟨"t1", "t2", 5 / 2,
        [("avg_length", .num 100, .num 200), ("hedging_rate", .num (1 / 10), .num (1 / 2))]⟩ ∧
    (5 / 2 : ℚ) > 15 / 100 := by
  refine ⟨?_, ?_, by norm_num⟩
  · simp +decide [driftLoop, relDiff, lookupVal, List.lookup]
    norm_num [abs_of_pos]
  · simp +decide [compare_fingerprints, driftLoop, relDiff, lookupVal, List.lookup]
    norm_num [abs_of_pos]

/-! ## Claim C4: a baseline key missing from the current metrics -/

/-- C4: a numeric baseline metric key (other than `response_hash`) absent
from the current metrics contributes a relative difference of exactly `0`
(computed, not raised) and never appears in the changed set. -/
theorem c4_missing_key (b c : Fingerprint) (k : String) (q : ℚ)
    (hk : k ≠ "response_hash")
    (hb : lookupVal b.metrics k = some (.num q))
    (hc : lookupVal c.metrics k = none) :
    relDiff (.num q) ((lookupVal c.metrics k).getD (.num q)) = some 0 ∧
      ∀ r, compare_fingerprints b c = some r → ∀ p ∈ r.changed_metrics, p.1 ≠ k := by
  constructor
  · rw [hc, Option.getD_none]
    exact relDiff_self_num q
  · intro r hr p hp
    unfold compare_fingerprints at hr
    cases hdl : driftLoop c.metrics b.metrics with
    | none => rw [hdl] at hr; simp at hr
    | some pr =>
      obtain ⟨ds, ch⟩ := pr
      rw [hdl] at hr
      simp only [Option.some.injEq] at hr
      subst hr
      exact driftLoop_changed_key_ne c.metrics k hc b.metrics ds ch hdl p hp

/-- C4 (witness): baseline `{a: 3}` against empty current metrics. -/
theorem c4_witness :
    ("a" : String) ≠ "response_hash" ∧
    lookupVal ([("a", .num 3)] : List (String × Val)) "a" = some (.num 3) ∧
    lookupVal ([] : List (String × Val)) "a" = none ∧
    (relDiff (.num 3) ((lookupVal ([] : List (String × Val)) "a").getD (.num 3)) = some 0 ∧
      ∀ r, compare_fingerprints ⟨"m", "t1", [("a", .num 3)], []⟩ ⟨"m", "t2", [], []⟩ = some r →
        ∀ p ∈ r.changed_metrics, p.1 ≠ "a") :=
  ⟨by decide, rfl, rfl,
   c4_missing_key ⟨"m", "t1", [("a", .num 3)], []⟩ ⟨"m", "t2", [], []⟩ "a" 3
     (by decide) rfl rfl⟩

/-! ## Claim C6: persistence round-trip -/

/-- C6: loading a saved fingerprint restores every field of the original
(round-trip law). -/
theorem c6_save_load_roundtrip (fp : Fingerprint) : Fingerprint.load fp.save = some fp := by
  obtain ⟨model, timestamp, metrics, raw⟩ := fp
  simp [Fingerprint.save, Fingerprint.load, decodeMetrics_map, decodeStrings_map]

/-! ## Claim C8: the drift score depends only on the metrics -/

/-- C8: two comparisons whose inputs carry equal metrics dicts (model,
timestamp and raw responses may differ arbitrarily) produce equal drift
scores. -/
theorem c8_deterministic (b₁ c₁ b₂ c₂ : Fingerprint)
    (hb : b₁.metrics = b₂.metrics) (hc : c₁.metrics = c₂.metrics) :
    (compare_fingerprints b₁ c₁).map DriftReport.drift_score =
      (compare_fingerprints b₂ c₂).map DriftReport.drift_score := by
  unfold compare_fingerprints
  rw [hb, hc]
  cases driftLoop c₂.metrics b₂.metrics with
  | none => rfl
  | some pr => obtain ⟨ds, ch⟩ := pr; rfl

/-- C8 (witness): two pairs with equal metrics but different models,
timestamps and raw responses. -/
theorem c8_witness :
    (compare_fingerprints ⟨"model-a", "t1", [("avg_length", .num 7)], ["u"]⟩
        ⟨"model-a", "t2", [("avg_length", .num 9)], ["v"]⟩).map DriftReport.drift_score =
      (compare_fingerprints ⟨"model-b", "t8", [("avg_length", .num 7)], []⟩
        ⟨"model-b", "t9", [("avg_length", .num 9)], ["w"]⟩).map DriftReport.drift_score :=
  c8_deterministic _ _ _ _ rfl rfl

/-! ## Claim C10: keys only in the current metrics -/

/-- C10 (counterexample): a `response_hash` entry present only in the
current metrics does affect the result: it triggers the hash bonus,
giving score `1/10` instead of `0`. -/
theorem c10_counterexample :
    (compare_fingerprints ⟨"m", "t1", [], []⟩
        ⟨"m", "t2", [("response_hash", Val.str "x")], []⟩).map DriftReport.drift_score =
      some (1 / 10) ∧
    (compare_fingerprints ⟨"m", "t1", [], []⟩ ⟨"m", "t2", [], []⟩).map
        DriftReport.drift_score = some 0 ∧
    (1 / 10 : ℚ) ≠ 0 := by
  refine ⟨?_, by norm_num [compare_fingerprints, driftLoop, lookupVal, List.lookup], by norm_num⟩
  norm_num [compare_fingerprints, driftLoop, lookupVal, List.lookup]
  decide

/-- C10 (amended): a metric key other than `response_hash` that is absent
from the baseline has no effect on the comparison (removing it from the
current metrics leaves the whole report unchanged), and every changed
metric key comes from the baseline; the `response_hash` key is the
exception, since its mere presence can trigger the hash bonus. -/
theorem c10_amended (b c : Fingerprint) (k : String)
    (hk : k ∉ b.metrics.map Prod.fst) (hh : k ≠ "response_hash") :
    compare_fingerprints b
        ⟨c.model, c.timestamp, c.metrics.filter (fun p => p.1 != k), c.raw_responses⟩ =
      compare_fingerprints b c ∧
    ∀ r, compare_fingerprints b c = some r →
      ∀ p ∈ r.changed_metrics, p.1 ∈ b.metrics.map Prod.fst := by
  constructor
  · unfold compare_fingerprints
    dsimp only
    have hdl : driftLoop (c.metrics.filter (fun p => p.1 != k)) b.metrics =
        driftLoop c.metrics b.metrics :=
      driftLoop_congr _ _ b.metrics (fun key hkey =>
        lookupVal_filter_ne c.metrics k key (fun e => hk (e ▸ hkey)))
    rw [hdl, lookupVal_filter_ne c.metrics k "response_hash" hh.symm]
  · intro r hr p hp
    unfold compare_fingerprints at hr
    cases hdl : driftLoop c.metrics b.metrics with
    | none => rw [hdl] at hr; simp at hr
    | some pr =>
      obtain ⟨ds, ch⟩ := pr
      rw [hdl] at hr
      simp only [Option.some.injEq] at hr
      subst hr
      exact driftLoop_changed_keys c.metrics b.metrics ds ch hdl p hp

/-- C10 (witness): the amended statement evaluated with an `extra` key
present only in the current metrics. -/
theorem c10_witness :
    ("extra" : String) ∉ ([("avg_length", Val.num 5)] : List (String × Val)).map Prod.fst ∧
    (compare_fingerprints ⟨"m", "t1", [("avg_length", .num 5)], []⟩
        ⟨"m", "t2", ([("avg_length", .num 5), ("extra", .num 9)] :
          List (String × Val)).filter (fun p => p.1 != "extra"), []⟩ =
      compare_fingerprints ⟨"m", "t1", [("avg_length", .num 5)], []⟩
        ⟨"m", "t2", [("avg_length", .num 5), ("extra", .num 9)], []⟩ ∧
    ∀ r, compare_fingerprints ⟨"m", "t1", [("avg_length", .num 5)], []⟩
        ⟨"m", "t2", [("avg_length", .num 5), ("extra", .num 9)], []⟩ = some r →
      ∀ p ∈ r.changed_metrics,
        p.1 ∈ ([("avg_length", Val.num 5)] : List (String × Val)).map Prod.fst) :=
  ⟨by decide,
   c10_amended ⟨"m", "t1", [("avg_length", .num 5)], []⟩
     ⟨"m", "t2", [("avg_length", .num 5), ("extra", .num 9)], []⟩ "extra"
     (by decide) (by decide)⟩

end GptDrift
